import Mathlib

/-
  Verification of the BackupCTL backup/restore orchestration engine
  (backup-system/backupctl) against its natural-language specification.

  The Python sources are shallowly embedded as executable Lean definitions:
  the metadata ledger (utils/metadata.py) becomes a pure record-list state,
  the orchestrators (core/backup.py, core/restore.py) become state-passing
  functions whose external effects (pg_dump, S3 transfers, the backing
  store's reachability) are supplied as boolean oracles, and timestamps are
  integers (seconds).  Fallible external calls keep the source's control
  flow: a Python exception caught by a handler is modelled by the branch the
  handler takes.
-/

namespace BackupCTL

/-- Backup kind, column `backup_type` of `backup_metadata` (values written by
`core/backup.py`: 'full' and 'incremental'). -/
inductive BackupType where
  | full
  | incremental
deriving DecidableEq, Repr

/-- Lifecycle status, column `status` (values written by the orchestrators:
'running', 'completed', 'failed'). -/
inductive BackupStatus where
  | running
  | completed
  | failed
deriving DecidableEq, Repr

/-- One row of the `backup_metadata` table (utils/metadata.py, schema in
`_initialize_schema`).  Timestamps are integer seconds; nullable columns are
`Option`. -/
structure BackupRecord where
  backup_id : String
  backup_type : BackupType
  status : BackupStatus
  start_ts : Int
  end_ts : Option Int := none
  size_bytes : Option Int := none
  s3_key : Option String := none
  s3_bucket : Option String := none
  checksum : Option String := none
  compression : Option String := none
  encryption : Option String := none
  label : String := ""
  descr : String := ""
  meta_wal_files : List String := []
deriving DecidableEq, Repr

/-- One row of the `wal_metadata` table.  The schema declares
`backup_id VARCHAR(255) REFERENCES backup_metadata(backup_id)`: a foreign
key into `backup_metadata`. -/
structure WalRecord where
  wal_name : String
  backup_id : String
  start_ts : Int
  end_ts : Int
  size_bytes : Int
  s3_key : String
  checksum : String
  sequence_number : Int
deriving DecidableEq, Repr

/-- The metadata ledger: the contents of the two tables the claims are
about.  `restore_operations` rows never feed back into any decision the
claims mention, so they are not carried. -/
structure Ledger where
  backups : List BackupRecord
  wals : List WalRecord
deriving DecidableEq, Repr

/-- The empty backing store (freshly initialized schema). -/
def emptyLedger : Ledger := { backups := [], wals := [] }

/-- MetadataManager.create_backup_record: INSERT INTO backup_metadata. -/
def create_backup_record (l : Ledger) (r : BackupRecord) : Ledger :=
  { l with backups := l.backups ++ [r] }

/-- MetadataManager.create_wal_record: INSERT INTO wal_metadata, with the
foreign-key constraint on `backup_id` ignored (the row is stored as given). -/
def create_wal_record (l : Ledger) (w : WalRecord) : Ledger :=
  { l with wals := l.wals ++ [w] }

/-- Whether a `backup_metadata` row with the given `backup_id` exists. -/
def hasBackup (l : Ledger) (id : String) : Bool :=
  l.backups.any (fun r => r.backup_id == id)

/-- MetadataManager.create_wal_record under the schema's declared
`REFERENCES backup_metadata(backup_id)` constraint: the INSERT is rejected
(raises, caught by the caller) when no parent row exists. -/
def create_wal_record_fk (l : Ledger) (w : WalRecord) : Option Ledger :=
  if hasBackup l w.backup_id then some (create_wal_record l w) else none

/-- MetadataManager.update_backup_status: UPDATE backup_metadata SET status
(always), end_ts (when passed), and exactly the kwargs in the whitelist
['size_bytes', 's3_key', 'checksum'] (metadata.py lines 180-183; any other
kwarg, e.g. s3_bucket / compression / encryption passed by
create_full_backup, is silently discarded).  The UPDATE has no guard on the
current status; a missing backup_id matches no row and the call is a no-op. -/
def update_backup_status (l : Ledger) (id : String) (st : BackupStatus)
    (endTs : Option Int) (sizeBytes : Option Int) (s3Key : Option String)
    (cksum : Option String) : Ledger :=
  { l with backups := l.backups.map (fun r =>
      if r.backup_id == id then
        { r with
          status := st
          end_ts := match endTs with | some e => some e | none => r.end_ts
          size_bytes := match sizeBytes with | some v => some v | none => r.size_bytes
          s3_key := match s3Key with | some v => some v | none => r.s3_key
          checksum := match cksum with | some v => some v | none => r.checksum }
      else r) }

/-- The fourteen named placeholders of create_backup_record's INSERT INTO
backup_metadata (metadata.py lines 137-148).  psycopg2 formats the SQL with
the parameter dict; any placeholder missing from the dict raises KeyError
at cursor.execute, client-side and before the statement reaches the store. -/
def backupInsertPlaceholders : List String :=
  ["backup_id", "backup_type", "status", "start_ts", "end_ts", "size_bytes",
   "s3_key", "s3_bucket", "checksum", "compression", "encryption", "label",
   "description", "metadata_json"]

/-- The keys of the backup_data dict create_full_backup passes to
create_backup_record (backup.py lines 50-62): seven of the fourteen
placeholders; end_ts, size_bytes, s3_key, s3_bucket, checksum, compression
and encryption are absent. -/
def fullBackupDataKeys : List String :=
  ["backup_id", "backup_type", "status", "start_ts", "label", "description",
   "metadata_json"]

/-- The keys of the batch-marker backup_data dict create_incremental_backup
passes to create_backup_record (backup.py lines 186-199): eight of the
fourteen placeholders; size_bytes, s3_key, s3_bucket, checksum, compression
and encryption are absent. -/
def incrementalMarkerDataKeys : List String :=
  ["backup_id", "backup_type", "status", "start_ts", "end_ts", "label",
   "description", "metadata_json"]

/-- The eight named placeholders of create_wal_record's INSERT INTO
wal_metadata (metadata.py lines 300-308). -/
def walInsertPlaceholders : List String :=
  ["wal_name", "backup_id", "start_ts", "end_ts", "size_bytes", "s3_key",
   "checksum", "sequence_number"]

/-- The keys of the wal_data dict (backup.py lines 165-174): all eight
placeholders are present, so the segment INSERT raises no KeyError and
fails only through the store (e.g. the foreign-key rejection). -/
def walDataKeys : List String :=
  ["wal_name", "backup_id", "start_ts", "end_ts", "size_bytes", "s3_key",
   "checksum", "sequence_number"]

/-- The eight named placeholders of create_restore_record's INSERT INTO
restore_operations (metadata.py lines 355-364). -/
def restoreInsertPlaceholders : List String :=
  ["restore_id", "backup_id", "target_time", "target_xid", "target_lsn",
   "status", "start_ts", "destination_path"]

/-- The keys of the restore_data dict (restore.py lines 72-79): six of the
eight placeholders; target_xid and target_lsn are absent. -/
def restoreDataKeys : List String :=
  ["restore_id", "backup_id", "target_time", "status", "start_ts",
   "destination_path"]

/-- Whether executing an INSERT whose SQL names `required` placeholders
with a parameter dict holding `provided` keys raises KeyError: true exactly
when some required placeholder is missing from the dict.  This failure is
deterministic and independent of the backing store. -/
def insertKeyErrors (provided required : List String) : Bool :=
  !(required.all (fun k => provided.contains k))

/-- One call to MetadataManager.create_backup_record with the parameter
dict's key set made explicit: `none` models the exception propagating to
the caller (the method re-raises after rollback) — either the client-side
KeyError from a missing placeholder, or a store failure when `storeOk` is
false; `some` is the committed insert. -/
def create_backup_record_op (providedKeys : List String) (storeOk : Bool)
    (l : Ledger) (r : BackupRecord) : Option Ledger :=
  if insertKeyErrors providedKeys backupInsertPlaceholders then none
  else if storeOk then some (create_backup_record l r) else none

/-- One call to MetadataManager.update_backup_status: the UPDATE uses
positional parameters (no KeyError possible); when the store is unreachable
the method catches the exception, rolls back and RETURNS False — it never
raises (metadata.py lines 199-203).  The Boolean result is the only signal
the caller gets. -/
def update_backup_status_op (storeOk : Bool) (l : Ledger) (id : String)
    (st : BackupStatus) (endTs : Option Int) (sizeBytes : Option Int)
    (s3Key : Option String) (cksum : Option String) : Bool × Ledger :=
  if storeOk then (true, update_backup_status l id st endTs sizeBytes s3Key cksum)
  else (false, l)

/-- Order used by get_wals_for_backup's ORDER BY sequence_number. -/
def seqLe (a b : WalRecord) : Prop := a.sequence_number ≤ b.sequence_number

instance : DecidableRel seqLe := fun a b =>
  inferInstanceAs (Decidable (a.sequence_number ≤ b.sequence_number))

instance : IsTotal WalRecord seqLe :=
  ⟨fun a b => le_total a.sequence_number b.sequence_number⟩

instance : IsTrans WalRecord seqLe :=
  ⟨fun _ _ _ hab hbc => le_trans hab hbc⟩

/-- MetadataManager.get_wals_for_backup: SELECT * FROM wal_metadata WHERE
backup_id = id ORDER BY sequence_number.  SQL leaves the order of ties
unspecified; the model uses a stable sort. -/
def get_wals_for_backup (l : Ledger) (id : String) : List WalRecord :=
  List.insertionSort seqLe (l.wals.filter (fun w => w.backup_id == id))

/- ------------------------------------------------------------------ -/
/- crypto.py                                                           -/
/- ------------------------------------------------------------------ -/

/-- Lowercasing of a string as `str.lower` acts on it, character by
character.  `Char.toLower` lowers exactly the ASCII letters A-Z; Python's
`str.lower` agrees with it on all ASCII strings, which covers every hex
digest and every checksum the system stores. -/
def lowerStr (s : String) : String := ⟨s.data.map Char.toLower⟩

/-- crypto.verify_checksum: recompute the file's digest and compare it to
the expected string after lowercasing both sides
(`actual_checksum.lower() == expected_checksum.lower()`).  The digest
computation (`calculate_checksum`, a SHA-256 hexdigest) is abstracted as a
function `hash` from file contents to digest strings. -/
def verify_checksum (hash : String → String) (fileContents : String)
    (expected : String) : Bool :=
  lowerStr (hash fileContents) == lowerStr expected

/-- Equality of two strings up to ASCII letter case: same length, and at
every position the characters agree after ASCII lowercasing.  This is the
spec-side reading of "equals the expected string up to ASCII letter case". -/
def eqUpToAsciiCase (a b : String) : Prop :=
  a.data.length = b.data.length ∧
    ∀ i : Nat, ∀ h1 : i < a.data.length, ∀ h2 : i < b.data.length,
      Char.toLower (a.data.get ⟨i, h1⟩) = Char.toLower (b.data.get ⟨i, h2⟩)

/- ------------------------------------------------------------------ -/
/- core/backup.py : _extract_wal_sequence                              -/
/- ------------------------------------------------------------------ -/

/-- Value of a single hexadecimal digit, both letter cases accepted, as
Python's `int(s, 16)` reads digits. -/
def hexDigitVal (c : Char) : Option Nat :=
  if '0' ≤ c ∧ c ≤ '9' then some (c.toNat - '0'.toNat)
  else if 'a' ≤ c ∧ c ≤ 'f' then some (c.toNat - 'a'.toNat + 10)
  else if 'A' ≤ c ∧ c ≤ 'F' then some (c.toNat - 'A'.toNat + 10)
  else none

/-- Left-to-right accumulation of hex digits; `none` on the first non-digit. -/
def parseHexAux : Nat → List Char → Option Nat
  | acc, [] => some acc
  | acc, c :: cs =>
    match hexDigitVal c with
    | some v => parseHexAux (16 * acc + v) cs
    | none => none

/-- Python `int(s, 16)` on a plain string of hex digits: the value when the
string is nonempty and all characters are hex digits, otherwise `none`
(ValueError).  Python additionally tolerates surrounding whitespace, a sign
and underscore digit separators; WAL segment names contain none of those, so
the model covers the plain-digit grammar. -/
def parseHexDigits (l : List Char) : Option Nat :=
  if l.isEmpty then none else parseHexAux 0 l

/-- The part of a filename before its first '.', as `wal_filename.split('.')[0]`. -/
def stemOf (name : String) : List Char := name.data.takeWhile (fun c => c ≠ '.')

/-- BackupEngine._extract_wal_sequence: `int(wal_filename.split('.')[0], 16)`
with a bare `except: return 0`. -/
def extract_wal_sequence (name : String) : Nat :=
  (parseHexDigits (stemOf name)).getD 0

/- ------------------------------------------------------------------ -/
/- cli.py : prune                                                      -/
/- ------------------------------------------------------------------ -/

/-- Retention configuration: `retention_config.get('full_days', 30)` and
`retention_config.get('incremental_days', 7)` — absent keys fall back to the
defaults 30 and 7. -/
structure RetentionConfig where
  full_days : Option Int := none
  incremental_days : Option Int := none
deriving DecidableEq, Repr

def fullDaysOf (c : RetentionConfig) : Int := c.full_days.getD 30

def incrementalDaysOf (c : RetentionConfig) : Int := c.incremental_days.getD 7

/-- Age in whole days, `(now - start_ts).days`: Python's timedelta.days is
the floor of the difference in days, which is flooring integer division of
the difference in seconds by 86400. -/
def backupAgeDays (now start_ts : Int) : Int := (now - start_ts).fdiv 86400

/-- The per-record selection test of cli.prune: a record is marked when its
age in whole days strictly exceeds the threshold for its kind
(`backup_age > full_days` resp. `backup_age > inc_days`). -/
def should_prune (cfg : RetentionConfig) (now : Int) (b : BackupRecord) : Bool :=
  match b.backup_type with
  | .full => fullDaysOf cfg < backupAgeDays now b.start_ts
  | .incremental => incrementalDaysOf cfg < backupAgeDays now b.start_ts

/-- One line of prune's report: the dict appended to `pruned_backups`
(identifier, kind, age in days, size). -/
structure PruneEntry where
  backup_id : String
  backup_type : BackupType
  age_days : Int
  size_bytes : Option Int
deriving DecidableEq, Repr

def pruneEntryOf (now : Int) (b : BackupRecord) : PruneEntry :=
  { backup_id := b.backup_id
    backup_type := b.backup_type
    age_days := backupAgeDays now b.start_ts
    size_bytes := b.size_bytes }

/-- cli.prune over the scanned records (list_recent_backups, most recent
1000): returns the candidate report list and the list of S3 keys deleted
through the gateway.  In dry-run mode no deletion is issued; otherwise each
marked record with a non-null s3_key has its remote object deleted.  (The
commented-out metadata deletion in the source never runs.) -/
def prune (cfg : RetentionConfig) (dryRun : Bool) (now : Int)
    (records : List BackupRecord) : List PruneEntry × List String :=
  records.foldl
    (fun acc b =>
      if should_prune cfg now b then
        ( acc.1 ++ [pruneEntryOf now b]
        , if dryRun then acc.2
          else match b.s3_key with
            | some k => acc.2 ++ [k]
            | none => acc.2 )
      else acc)
    ([], [])

/- ------------------------------------------------------------------ -/
/- lexical order and hex values (spec invariant on segment names)      -/
/- ------------------------------------------------------------------ -/

/-- Lexicographic strict order on character lists, as Python compares
strings (`s < t`). -/
def lexLt : List Char → List Char → Bool
  | _, [] => false
  | [], _ :: _ => true
  | a :: s, b :: t => if a < b then true else if a = b then lexLt s t else false

/-- The sixteen uppercase hexadecimal digit characters. -/
def hexUpperChars : List Char :=
  ['0', '1', '2', '3', '4', '5', '6', '7', '8', '9', 'A', 'B', 'C', 'D', 'E', 'F']

/-- Numeric value of a digit list under the base-16 left-to-right
accumulation that `int(s, 16)` performs (non-digits contribute their
`getD 0` default; only used on all-digit lists). -/
def hexValOf (l : List Char) : Nat :=
  l.foldl (fun a c => 16 * a + (hexDigitVal c).getD 0) 0

/- ------------------------------------------------------------------ -/
/- utils/s3_client.py : upload_file / _verify_upload                   -/
/- ------------------------------------------------------------------ -/

/-- The remote object store: a list of (key, content) pairs written so far. -/
structure RemoteStore where
  objs : List (String × String)
deriving DecidableEq, Repr

/-- External outcomes of one upload: whether `client.upload_file` raised,
whether the verification re-download (`client.download_file` in
`_verify_upload`) raised, and what bytes the store actually holds for the
key afterwards (equal to the local bytes on a faithful transfer, different
on a corrupted or truncated one). -/
structure UploadEnv where
  transferOk : Bool
  verifyDownloadOk : Bool
  storedContent : String
deriving DecidableEq, Repr

/-- S3Client.upload_file: compute the local checksum, transfer with the
checksum attached as object metadata, then `_verify_upload`: re-download the
just-written object to a scratch path and compare checksums with
`verify_checksum`.  Returns (success, s3_key-or-error) and the resulting
remote store; a transfer exception leaves the store unchanged and returns
failure. -/
def upload_file (hash : String → String) (env : UploadEnv) (remote : RemoteStore)
    (localContents : String) (s3Key : String) : (Bool × String) × RemoteStore :=
  let localChecksum := hash localContents
  if env.transferOk then
    let remote2 : RemoteStore := { objs := remote.objs ++ [(s3Key, env.storedContent)] }
    if env.verifyDownloadOk then
      if verify_checksum hash env.storedContent localChecksum then
        ((true, s3Key), remote2)
      else
        ((false, "Falha na verificacao de integridade"), remote2)
    else
      ((false, "Erro na verificacao de upload"), remote2)
  else
    ((false, "Erro no upload para S3"), remote)

/- ------------------------------------------------------------------ -/
/- core/backup.py : create_full_backup                                 -/
/- ------------------------------------------------------------------ -/

/-- External outcomes of one full-backup run: `createStoreOk` is whether
the initial INSERT's write would reach the store (it never gets that far —
the KeyError fires first, see `create_full_backup`); `dumpOk`: pg_dump
exits 0 within the timeout with a non-empty file; `uploadOk`: the gateway
upload incl. verification succeeds; `statusOk`: the `update_backup_status`
UPDATE reaches the store; plus the artifact data that would be recorded on
success.  Compression failure only downgrades the artifact to the
uncompressed file with a warning (core/backup.py lines 75-83) and never
changes the control flow, so `compressionEnabled`/`compressOk` select the
artifact flavour without influencing the outcome. -/
structure FullBackupEnv where
  createStoreOk : Bool
  dumpOk : Bool
  compressionEnabled : Bool
  compressOk : Bool
  uploadOk : Bool
  statusOk : Bool
  sizeBytes : Int
  s3Key : String
  cksum : String
deriving DecidableEq, Repr

/-- The provisional `running` row that create_full_backup's backup_data
dict describes (backup.py lines 50-62), with the absent columns as NULL.
The row is never actually inserted: the dict omits seven of the INSERT's
fourteen named placeholders (`fullBackupDataKeys` versus
`backupInsertPlaceholders`), so cursor.execute raises KeyError before the
statement reaches the store (the raw metadata_json dict, which psycopg2
cannot adapt, is a second independent failure on the same call). -/
def fullDraft (backupId : String) (startTs : Int) : BackupRecord :=
  { backup_id := backupId, backup_type := .full, status := .running,
    start_ts := startTs, label := "full-backup",
    descr := "Backup completo automatizado" }

/-- BackupEngine.create_full_backup.  Control flow of backup.py lines
64-125: insert the running draft — this call ALWAYS raises KeyError
(backup_data lacks the end_ts/size_bytes/s3_key/s3_bucket/checksum/
compression/encryption placeholders of the INSERT), landing in the
`except` block, which tries to mark the (never inserted) record failed via
update_backup_status — whose Boolean result it ignores — and returns
failure before pg_dump ever runs.  The remaining steps (dump, upload,
finalize 'completed' without inspecting update_backup_status's result) are
kept as the source writes them; they are unreachable. -/
def create_full_backup (env : FullBackupEnv) (backupId : String)
    (startTs endTs : Int) (l0 : Ledger) : Bool × Ledger :=
  match create_backup_record_op fullBackupDataKeys env.createStoreOk l0
      (fullDraft backupId startTs) with
  | none =>
    (false, (update_backup_status_op env.statusOk l0 backupId .failed
      (some endTs) none none none).2)
  | some l1 =>
    if env.dumpOk then
      if env.uploadOk then
        (true, (update_backup_status_op env.statusOk l1 backupId .completed
          (some endTs) (some env.sizeBytes) (some env.s3Key) (some env.cksum)).2)
      else
        (false, (update_backup_status_op env.statusOk l1 backupId .failed
          (some endTs) none none none).2)
    else
      (false, (update_backup_status_op env.statusOk l1 backupId .failed
        (some endTs) none none none).2)

/- ------------------------------------------------------------------ -/
/- core/backup.py : create_incremental_backup                          -/
/- ------------------------------------------------------------------ -/

/-- One WAL segment of an incremental batch together with the external
outcomes of its processing: whether the gateway upload succeeds and whether
the create_wal_record INSERT reaches the store, plus the data recorded for
it (end timestamp taken at its iteration, size, key, checksum). -/
structure WalSegUpload where
  name : String
  uploadOk : Bool
  recordOk : Bool
  endTs : Int
  sizeBytes : Int
  s3Key : String
  cksum : String
deriving DecidableEq, Repr

/-- The wal_metadata row create_incremental_backup writes for a segment
(backup.py lines 165-176): sequence number from _extract_wal_sequence. -/
def walRecordOf (backupId : String) (startTs : Int) (s : WalSegUpload) : WalRecord :=
  { wal_name := s.name, backup_id := backupId, start_ts := startTs,
    end_ts := s.endTs, size_bytes := s.sizeBytes, s3_key := s.s3Key,
    checksum := s.cksum, sequence_number := (extract_wal_sequence s.name : Int) }

/-- The batch-marker backup_metadata row that the incremental backup_data
dict describes (backup.py lines 186-199): status 'completed' from the
start, absent columns as NULL, the uploaded names in metadata_json.  The
row is never actually inserted: the dict omits six of the INSERT's
fourteen named placeholders (`incrementalMarkerDataKeys` versus
`backupInsertPlaceholders`), so cursor.execute raises KeyError before the
statement reaches the store. -/
def incrementalMarker (backupId : String) (startTs endTs : Int)
    (uploaded : List String) : BackupRecord :=
  { backup_id := backupId, backup_type := .incremental, status := .completed,
    start_ts := startTs, end_ts := some endTs, label := "incremental-backup",
    descr := "Backup incremental", meta_wal_files := uploaded }

/-- One iteration of the per-segment loop (backup.py lines 152-180), with
the schema's foreign key NOT enforced: on upload success the wal row is
inserted (a store failure raises and is caught by the inner except, skipping
the segment); on upload failure the segment is skipped. -/
def incrementalStep (backupId : String) (startTs : Int)
    (acc : Ledger × List String) (s : WalSegUpload) : Ledger × List String :=
  if s.uploadOk then
    if s.recordOk then
      (create_wal_record acc.1 (walRecordOf backupId startTs s), acc.2 ++ [s.name])
    else acc
  else acc

/-- BackupEngine.create_incremental_backup with the foreign-key rejection
of the segment INSERTs lifted (the enforced behaviour is
`create_incremental_backup_fk`; see C1), isolating the second, independent
defect.  Control flow of backup.py lines 139-208: empty segment list
fails; each segment is processed independently (its wal_data dict carries
all eight placeholders, so its INSERT raises no KeyError and a failure only
skips that segment); zero successes raise into the outer except (failure);
otherwise the completed batch marker is inserted through
create_backup_record — whose dict is missing six placeholders, so the
INSERT always raises KeyError into the outer except and the operation
returns failure even with a reachable store (storeOk is passed as true). -/
def create_incremental_backup (backupId : String)
    (startTs endTs : Int) (segs : List WalSegUpload) (l0 : Ledger) : Bool × Ledger :=
  if segs.isEmpty then (false, l0)
  else
    let res := segs.foldl (incrementalStep backupId startTs) (l0, [])
    if res.2.isEmpty then (false, res.1)
    else
      match create_backup_record_op incrementalMarkerDataKeys true res.1
          (incrementalMarker backupId startTs endTs res.2) with
      | some l2 => (true, l2)
      | none => (false, res.1)

/-- The per-segment loop iteration with the schema's declared foreign key
enforced by the backing store: the wal INSERT is rejected when no
backup_metadata row with the batch's backup_id exists, which the inner
except treats like any other failed segment. -/
def incrementalStepFk (backupId : String) (startTs : Int)
    (acc : Ledger × List String) (s : WalSegUpload) : Ledger × List String :=
  if s.uploadOk then
    if s.recordOk then
      match create_wal_record_fk acc.1 (walRecordOf backupId startTs s) with
      | some l2 => (l2, acc.2 ++ [s.name])
      | none => acc
    else acc
  else acc

/-- BackupEngine.create_incremental_backup run against a backing store that
enforces the schema's `REFERENCES backup_metadata(backup_id)` constraint
(`markerOk` is the reachability of the store for the marker INSERT, which
the client-side KeyError pre-empts; with a fresh backup_id the marker
branch is unreachable anyway, since every segment INSERT is FK-rejected). -/
def create_incremental_backup_fk (markerOk : Bool) (backupId : String)
    (startTs endTs : Int) (segs : List WalSegUpload) (l0 : Ledger) : Bool × Ledger :=
  if segs.isEmpty then (false, l0)
  else
    let res := segs.foldl (incrementalStepFk backupId startTs) (l0, [])
    if res.2.isEmpty then (false, res.1)
    else
      match create_backup_record_op incrementalMarkerDataKeys markerOk res.1
          (incrementalMarker backupId startTs endTs res.2) with
      | some l2 => (true, l2)
      | none => (false, res.1)

/- ------------------------------------------------------------------ -/
/- core/restore.py : _apply_wal_files / restore_backup                 -/
/- ------------------------------------------------------------------ -/

/-- One WAL segment as _apply_wal_files sees it: its interval end
(`end_ts`), and the external outcomes of its download and of
_apply_single_wal. -/
structure WalStep where
  end_ts : Int
  downloadOk : Bool
  applyOk : Bool
deriving DecidableEq, Repr

/-- The per-segment loop of _apply_wal_files (restore.py lines 260-282),
returning (segments processed in order, segments applied in order).  For
each segment: download first — a failed download `continue`s to the next
segment BEFORE any time check; then if the segment's interval end exceeds
the target (`wal_time > target_dt`) `break`; otherwise apply it, collecting
it when the apply succeeds. -/
def apply_wal_loop (target : Int) : List WalStep → List WalStep × List WalStep
  | [] => ([], [])
  | s :: rest =>
    if s.downloadOk then
      if target < s.end_ts then ([s], [])
      else
        let res := apply_wal_loop target rest
        (s :: res.1, if s.applyOk then s :: res.2 else res.2)
    else
      let res := apply_wal_loop target rest
      (s :: res.1, res.2)

/-- RestoreEngine._apply_wal_files: runs the loop over the segments of the
base backup and returns True on every non-raising path (restore.py line
285), regardless of how many segments were applied. -/
def apply_wal_files (target : Int) (wals : List WalStep) : Bool × List WalStep :=
  (true, (apply_wal_loop target wals).2)

/-- Stopping condition of the loop: the segment downloads successfully and
its interval end exceeds the target. -/
def walStops (target : Int) (s : WalStep) : Bool :=
  s.downloadOk && decide (target < s.end_ts)

/-- External outcomes of the restore's individual steps, in source order:
`baseFound` — a base backup resolves (explicit id found, or a latest
completed full backup exists); `baseCompleted` — its status is 'completed';
`downloadOk` — base download, checksum verification and decompression
succeed; `applyBaseOk` — the pg_restore / psql apply succeeds. -/
structure RestoreEnv where
  baseFound : Bool
  baseCompleted : Bool
  downloadOk : Bool
  applyBaseOk : Bool
deriving DecidableEq, Repr

/-- RestoreEngine.restore_backup reduced to the success decision and the
applied WAL segments (restore.py lines 50-128).  Steps in source order:
resolve and check the base; CREATE the RestoreOperationRecord — this call
ALWAYS raises KeyError, because restore_data (restore.py lines 72-79)
lacks the target_xid and target_lsn placeholders of the INSERT
(metadata.py lines 355-364) — landing in the except block, which marks the
restore failed and returns False before any download or replay.  The
subsequent steps are kept as the source writes them (a _apply_wal_files
False result only logs a warning and the operation is still reported
successful); they are unreachable. -/
def restore_backup (env : RestoreEnv) (target : Option Int)
    (wals : List WalStep) : Bool × List WalStep :=
  if env.baseFound = false then (false, [])
  else if env.baseCompleted = false then (false, [])
  else if insertKeyErrors restoreDataKeys restoreInsertPlaceholders then (false, [])
  else if env.downloadOk = false then (false, [])
  else if env.applyBaseOk = false then (false, [])
  else
    match target with
    | some t => (true, (apply_wal_files t wals).2)
    | none => (true, [])

end BackupCTL

namespace BackupCTL

/- ------------------------------------------------------------------ -/
/- helper lemmas                                                       -/
/- ------------------------------------------------------------------ -/

/-- Unfolding prune's foldl as an accumulator recursion. -/
theorem prune_foldl_acc (cfg : RetentionConfig) (dryRun : Bool) (now : Int)
    (records : List BackupRecord) (c0 : List PruneEntry) (d0 : List String) :
    records.foldl
      (fun acc b =>
        if should_prune cfg now b then
          ( acc.1 ++ [pruneEntryOf now b]
          , if dryRun then acc.2
            else match b.s3_key with
              | some k => acc.2 ++ [k]
              | none => acc.2 )
        else acc)
      (c0, d0)
    = ( c0 ++ (records.filter (should_prune cfg now)).map (pruneEntryOf now)
      , d0 ++ (if dryRun then []
          else (records.filter (should_prune cfg now)).filterMap (fun b => b.s3_key)) ) := by
  induction records generalizing c0 d0 with
  | nil => simp
  | cons b rest ih =>
    cases hb : should_prune cfg now b with
    | false =>
      simp only [List.foldl_cons, hb, Bool.false_eq_true, if_false, List.filter_cons, ih]
    | true =>
      simp only [List.foldl_cons, hb, if_true, List.filter_cons]
      rw [ih]
      cases hk : b.s3_key with
      | none => cases dryRun <;> simp [hk, hb]
      | some k => cases dryRun <;> simp [hk, hb]

/-- Closed form of prune: the candidate list is the filtered, mapped scan,
and the deletions are the marked records' non-null keys unless dry-run. -/
theorem prune_eq (cfg : RetentionConfig) (dryRun : Bool) (now : Int)
    (records : List BackupRecord) :
    prune cfg dryRun now records
    = ( (records.filter (should_prune cfg now)).map (pruneEntryOf now)
      , if dryRun then []
        else (records.filter (should_prune cfg now)).filterMap (fun b => b.s3_key) ) := by
  unfold prune
  rw [prune_foldl_acc]
  simp

end BackupCTL

/- ------------------------------------------------------------------ -/
/- C8                                                                  -/
/- ------------------------------------------------------------------ -/

/-- C8: a BackupRecord scanned by prune is selected exactly when its age in
whole days strictly exceeds the retention threshold for its kind (default
30 days for full, 7 for incremental); in particular a full record of age
`full_days + 1` is selected and one of age `full_days - 1` is not. -/
theorem c8_prune_selection (cfg : BackupCTL.RetentionConfig) (dryRun : Bool)
    (now : Int) (records : List BackupCTL.BackupRecord) :
    ( (BackupCTL.prune cfg dryRun now records).1
        = (records.filter (BackupCTL.should_prune cfg now)).map
            (BackupCTL.pruneEntryOf now) )
    ∧ (∀ b : BackupCTL.BackupRecord,
        BackupCTL.should_prune cfg now b = true ↔
          (match b.backup_type with
            | .full => BackupCTL.fullDaysOf cfg < BackupCTL.backupAgeDays now b.start_ts
            | .incremental =>
                BackupCTL.incrementalDaysOf cfg < BackupCTL.backupAgeDays now b.start_ts))
    ∧ (∀ b : BackupCTL.BackupRecord, b.backup_type = .full →
        BackupCTL.backupAgeDays now b.start_ts = BackupCTL.fullDaysOf cfg + 1 →
        BackupCTL.should_prune cfg now b = true)
    ∧ (∀ b : BackupCTL.BackupRecord, b.backup_type = .full →
        BackupCTL.backupAgeDays now b.start_ts = BackupCTL.fullDaysOf cfg - 1 →
        BackupCTL.should_prune cfg now b = false) := by
  refine ⟨(congrArg Prod.fst (BackupCTL.prune_eq cfg dryRun now records)), ?_, ?_, ?_⟩
  · intro b
    cases hb : b.backup_type <;> simp [BackupCTL.should_prune, hb]
  · intro b hfull hage
    simp [BackupCTL.should_prune, hfull, hage]
  · intro b hfull hage
    simp [BackupCTL.should_prune, hfull, hage]

/-- Witness for C8 at a concrete full record of age 31 days (threshold the
default 30): it is selected; one of age 29 days is not. -/
theorem c8_prune_selection_witness :
    BackupCTL.should_prune {} 0
      { backup_id := "b1", backup_type := .full, status := .completed,
        start_ts := -(31 * 86400) } = true
    ∧ BackupCTL.should_prune {} 0
      { backup_id := "b2", backup_type := .full, status := .completed,
        start_ts := -(29 * 86400) } = false := by
  constructor
  · exact (c8_prune_selection {} false 0 []).2.2.1
      { backup_id := "b1", backup_type := .full, status := .completed,
        start_ts := -(31 * 86400) } rfl (by decide)
  · exact (c8_prune_selection {} false 0 []).2.2.2
      { backup_id := "b2", backup_type := .full, status := .completed,
        start_ts := -(29 * 86400) } rfl (by decide)

/- ------------------------------------------------------------------ -/
/- C9                                                                  -/
/- ------------------------------------------------------------------ -/

/-- C9: for every ledger state and retention policy, dry-run prune produces
exactly the same candidate list (identifier, kind, age, size) as a real run,
and performs zero remote deletions. -/
theorem c9_prune_dry_run (cfg : BackupCTL.RetentionConfig) (now : Int)
    (records : List BackupCTL.BackupRecord) :
    (BackupCTL.prune cfg true now records).1 = (BackupCTL.prune cfg false now records).1
    ∧ (BackupCTL.prune cfg true now records).2 = [] := by
  rw [BackupCTL.prune_eq, BackupCTL.prune_eq]
  exact ⟨rfl, rfl⟩

/- ------------------------------------------------------------------ -/
/- C10                                                                 -/
/- ------------------------------------------------------------------ -/

namespace BackupCTL

/-- Pointwise characterization of equality of lowered character lists. -/
theorem map_toLower_eq_iff (a b : List Char) :
    a.map Char.toLower = b.map Char.toLower ↔
      (a.length = b.length ∧
        ∀ i : Nat, ∀ h1 : i < a.length, ∀ h2 : i < b.length,
          Char.toLower (a.get ⟨i, h1⟩) = Char.toLower (b.get ⟨i, h2⟩)) := by
  constructor
  · intro h
    have hlen : a.length = b.length := by
      have := congrArg List.length h
      simpa using this
    refine ⟨hlen, ?_⟩
    intro i h1 h2
    have h1m : i < (a.map Char.toLower).length := by simpa using h1
    have := List.get_of_eq h ⟨i, h1m⟩
    simpa using this
  · rintro ⟨hlen, hpt⟩
    apply List.ext_get
    · simpa using hlen
    · intro i h1m h2m
      have h1 : i < a.length := by simpa using h1m
      have h2 : i < b.length := by simpa using h2m
      simpa using hpt i h1 h2

end BackupCTL

/-- C10: checksum verification is case-insensitive: verify_checksum succeeds
exactly when the freshly computed digest equals the expected string up to
ASCII letter case; a stored checksum differing from the computed digest only
in hex-digit case still verifies (concrete instance included). -/
theorem c10_verify_checksum_case_insensitive :
    (∀ hash : String → String, ∀ fileContents expected : String,
      BackupCTL.verify_checksum hash fileContents expected = true ↔
        BackupCTL.eqUpToAsciiCase (hash fileContents) expected)
    ∧ BackupCTL.verify_checksum (fun _ => "ab3f09cd") "payload" "AB3F09CD" = true := by
  constructor
  · intro hash fileContents expected
    unfold BackupCTL.verify_checksum BackupCTL.eqUpToAsciiCase BackupCTL.lowerStr
    rw [beq_iff_eq, String.ext_iff]
    exact BackupCTL.map_toLower_eq_iff (hash fileContents).data expected.data
  · decide

namespace BackupCTL

/-- Closed form of the _apply_wal_files loop: the processed prefix runs up
to and including the first segment that downloads successfully and whose
interval end exceeds the target; the applied segments are the
successfully-downloaded, successfully-applied segments of the prefix before
that stopping segment. -/
theorem apply_wal_loop_eq (target : Int) (wals : List WalStep) :
    apply_wal_loop target wals
      = ( wals.takeWhile (fun s => !walStops target s)
            ++ (wals.dropWhile (fun s => !walStops target s)).take 1
        , (wals.takeWhile (fun s => !walStops target s)).filter
            (fun s => s.downloadOk && s.applyOk) ) := by
  induction wals with
  | nil => simp [apply_wal_loop]
  | cons s rest ih =>
    cases hd : s.downloadOk with
    | false =>
      have hstop : walStops target s = false := by simp [walStops, hd]
      simp [apply_wal_loop, hd, ih, List.takeWhile_cons, List.dropWhile_cons, hstop,
        List.filter_cons]
    | true =>
      by_cases htt : target < s.end_ts
      · have hstop : walStops target s = true := by simp [walStops, hd, htt]
        simp [apply_wal_loop, hd, htt, List.takeWhile_cons, List.dropWhile_cons, hstop]
      · have hstop : walStops target s = false := by simp [walStops, hd, htt]
        cases ha : s.applyOk <;>
          simp [apply_wal_loop, hd, htt, ih, List.takeWhile_cons, List.dropWhile_cons,
            hstop, List.filter_cons, ha]

/-- Closed form of the incremental per-segment loop without foreign-key
enforcement: exactly the segments whose upload and record write both
succeed are recorded, in order. -/
theorem incremental_fold_eq (backupId : String) (startTs : Int)
    (segs : List WalSegUpload) (l : Ledger) (ups : List String) :
    segs.foldl (incrementalStep backupId startTs) (l, ups)
      = ( ⟨l.backups, l.wals ++ (segs.filter (fun s => s.uploadOk && s.recordOk)).map
              (walRecordOf backupId startTs)⟩
        , ups ++ (segs.filter (fun s => s.uploadOk && s.recordOk)).map
              (fun s => s.name) ) := by
  induction segs generalizing l ups with
  | nil => simp
  | cons s rest ih =>
    cases hu : s.uploadOk <;> cases hr : s.recordOk <;>
      simp [incrementalStep, hu, hr, ih, create_wal_record, List.filter_cons]

/-- Under the declared foreign key, a wal insert for an absent parent is
rejected, so the per-segment loop leaves the accumulator untouched. -/
theorem incremental_fold_fk_unchanged (backupId : String) (startTs : Int)
    (segs : List WalSegUpload) (l : Ledger) (ups : List String)
    (h : hasBackup l backupId = false) :
    segs.foldl (incrementalStepFk backupId startTs) (l, ups) = (l, ups) := by
  induction segs with
  | nil => rfl
  | cons s rest ih =>
    have hstep : incrementalStepFk backupId startTs (l, ups) s = (l, ups) := by
      unfold incrementalStepFk create_wal_record_fk
      cases hu : s.uploadOk <;> cases hr : s.recordOk <;>
        simp [hu, hr, walRecordOf, h]
    rw [List.foldl_cons, hstep, ih]

end BackupCTL

/- ------------------------------------------------------------------ -/
/- C4                                                                  -/
/- ------------------------------------------------------------------ -/

/-- C4: upload_file declares success only when the transfer succeeded, the
verification re-download of the just-written object succeeded, and the
digest recomputed over the re-downloaded bytes matches the locally computed
checksum; when the re-verification disagrees, upload_file returns a failure
result even though the bytes exist remotely. -/
theorem c4_upload_write_then_verify (hash : String → String)
    (env : BackupCTL.UploadEnv) (remote : BackupCTL.RemoteStore)
    (localContents s3Key : String) :
    ((BackupCTL.upload_file hash env remote localContents s3Key).1.1 = true →
      env.transferOk = true ∧ env.verifyDownloadOk = true ∧
        BackupCTL.verify_checksum hash env.storedContent (hash localContents) = true)
    ∧ (env.transferOk = true → env.verifyDownloadOk = true →
        BackupCTL.verify_checksum hash env.storedContent (hash localContents) = false →
        (BackupCTL.upload_file hash env remote localContents s3Key).1.1 = false ∧
          (s3Key, env.storedContent) ∈
            (BackupCTL.upload_file hash env remote localContents s3Key).2.objs) := by
  cases ht : env.transferOk with
  | false => simp [BackupCTL.upload_file, ht]
  | true =>
    cases hv : env.verifyDownloadOk with
    | false => simp [BackupCTL.upload_file, ht, hv]
    | true =>
      cases hc : BackupCTL.verify_checksum hash env.storedContent (hash localContents) with
      | false => simp [BackupCTL.upload_file, ht, hv, hc]
      | true => simp [BackupCTL.upload_file, ht, hv, hc]

/-- Witness for C4: with identity as the digest function, a transfer that
corrupts the bytes fails verification, the result is failure, and the
corrupted object is present remotely. -/
theorem c4_upload_write_then_verify_witness :
    (BackupCTL.upload_file (fun s => s) ⟨true, true, "corrupted"⟩ ⟨[]⟩
        "original" "k").1.1 = false
    ∧ ("k", "corrupted") ∈
        (BackupCTL.upload_file (fun s => s) ⟨true, true, "corrupted"⟩ ⟨[]⟩
          "original" "k").2.objs :=
  (c4_upload_write_then_verify (fun s => s) ⟨true, true, "corrupted"⟩ ⟨[]⟩
      "original" "k").2 rfl rfl (by decide)

/- ------------------------------------------------------------------ -/
/- C5                                                                  -/
/- ------------------------------------------------------------------ -/

/-- C5 (code bug): the restore orchestrator can never report success.
create_restore_record ALWAYS raises KeyError, because restore_data
(restore.py lines 72-79) lacks the target_xid and target_lsn placeholders
of its INSERT (metadata.py lines 355-364); the restore is finalized failed
before any download or replay, for every input.  The replay loop facts the
claim gets right are included: a segment is applied only if its interval
end does not exceed the target, and a target before every interval end
applies zero segments.  The final conjunct exhibits the loop's second
divergence: with target 4 and segments [end 5 whose download fails, end 3],
the first segment's interval end exceeds the target, yet iteration does not
stop there — the failed download is skipped by `continue` before the time
check that would have issued the `break`, and the later segment is still
processed and even applied. -/
theorem c5_restore_never_succeeds (env : BackupCTL.RestoreEnv)
    (target : Option Int) (wals : List BackupCTL.WalStep)
    (tgt : Int) (ws : List BackupCTL.WalStep) :
    BackupCTL.insertKeyErrors BackupCTL.restoreDataKeys
        BackupCTL.restoreInsertPlaceholders = true
    ∧ BackupCTL.restore_backup env target wals = (false, [])
    ∧ (∀ s ∈ (BackupCTL.apply_wal_loop tgt ws).2, s.end_ts ≤ tgt)
    ∧ ((∀ s ∈ ws, tgt < s.end_ts) → (BackupCTL.apply_wal_loop tgt ws).2 = [])
    ∧ ((4 : Int) < 5
        ∧ BackupCTL.apply_wal_loop 4 [⟨5, false, true⟩, ⟨3, true, true⟩]
            = ([⟨5, false, true⟩, ⟨3, true, true⟩], [⟨3, true, true⟩])) := by
  have hkey : BackupCTL.insertKeyErrors BackupCTL.restoreDataKeys
      BackupCTL.restoreInsertPlaceholders = true := by decide
  have hmem : ∀ s ∈ (BackupCTL.apply_wal_loop tgt ws).2,
      s ∈ ws ∧ BackupCTL.walStops tgt s = false
        ∧ s.downloadOk = true ∧ s.applyOk = true := by
    intro s hs
    rw [BackupCTL.apply_wal_loop_eq] at hs
    simp only [List.mem_filter, Bool.and_eq_true] at hs
    exact ⟨(List.takeWhile_sublist _).subset hs.1,
      by
        have := List.mem_takeWhile_imp hs.1
        simpa using this,
      hs.2.1, hs.2.2⟩
  have happlied : ∀ s ∈ (BackupCTL.apply_wal_loop tgt ws).2, s.end_ts ≤ tgt := by
    intro s hs
    obtain ⟨-, hstop, hd, -⟩ := hmem s hs
    unfold BackupCTL.walStops at hstop
    rw [hd] at hstop
    simp only [Bool.true_and, decide_eq_false_iff_not, not_lt] at hstop
    exact hstop
  refine ⟨hkey, ?_, happlied, ?_, by decide, rfl⟩
  · unfold BackupCTL.restore_backup
    cases hf : env.baseFound <;> cases hc : env.baseCompleted <;>
      simp [hf, hc, hkey]
  · intro hall
    rcases hx : (BackupCTL.apply_wal_loop tgt ws).2 with _ | ⟨s, rest⟩
    · rfl
    · exfalso
      have hsm : s ∈ (BackupCTL.apply_wal_loop tgt ws).2 := by
        rw [hx]
        exact List.mem_cons_self s rest
      obtain ⟨hw, -, -, -⟩ := hmem s hsm
      exact absurd (hall s hw) (not_lt.mpr (happlied s hsm))

/-- Witness for C5: the zero-applied clause at a concrete input (single
segment with interval end 5, target 0). -/
theorem c5_restore_never_succeeds_witness :
    (BackupCTL.apply_wal_loop 0 [⟨5, true, true⟩]).2 = [] :=
  (c5_restore_never_succeeds ⟨true, true, true, true⟩ none [] 0
      [⟨5, true, true⟩]).2.2.2.1 (by decide)

/- ------------------------------------------------------------------ -/
/- C6                                                                  -/
/- ------------------------------------------------------------------ -/

/-- C6 (code bug): the incremental batch can never report success, and no
segment can be uploaded-and-recorded against the real store.  Conjuncts:
the batch-marker dict is missing placeholders of its INSERT (KeyError);
the per-segment wal_data dict is complete (segment INSERTs raise no
KeyError, so a segment fails only through the store); in the FK-lifted
model a single segment's failure only skips that segment — the recorded
rows are exactly those of the segments whose upload and record write both
succeeded, in order — yet the operation still returns failure on every
input because the marker INSERT raises; and under the enforced foreign key
the operation likewise always fails. -/
theorem c6_incremental_never_succeeds (backupId : String) (startTs endTs : Int)
    (segs : List BackupCTL.WalSegUpload) (l0 : BackupCTL.Ledger)
    (markerOk : Bool) :
    BackupCTL.insertKeyErrors BackupCTL.incrementalMarkerDataKeys
        BackupCTL.backupInsertPlaceholders = true
    ∧ BackupCTL.insertKeyErrors BackupCTL.walDataKeys
        BackupCTL.walInsertPlaceholders = false
    ∧ (BackupCTL.create_incremental_backup backupId startTs endTs segs l0).1 = false
    ∧ (BackupCTL.create_incremental_backup backupId startTs endTs segs l0).2.wals
        = l0.wals ++ (segs.filter (fun s => s.uploadOk && s.recordOk)).map
            (BackupCTL.walRecordOf backupId startTs)
    ∧ (BackupCTL.hasBackup l0 backupId = false →
        (BackupCTL.create_incremental_backup_fk markerOk backupId startTs endTs
          segs l0).1 = false) := by
  have hkey : BackupCTL.insertKeyErrors BackupCTL.incrementalMarkerDataKeys
      BackupCTL.backupInsertPlaceholders = true := by decide
  have hmain : BackupCTL.create_incremental_backup backupId startTs endTs segs l0
      = (false, ⟨l0.backups,
          l0.wals ++ (segs.filter (fun s => s.uploadOk && s.recordOk)).map
            (BackupCTL.walRecordOf backupId startTs)⟩) := by
    unfold BackupCTL.create_incremental_backup
    cases hse : segs.isEmpty with
    | true =>
      have hnil : segs = [] := by
        cases segs with
        | nil => rfl
        | cons a l => exact absurd hse (by simp)
      subst hnil
      simp
    | false =>
      simp only [Bool.false_eq_true, if_false, BackupCTL.incremental_fold_eq,
        BackupCTL.create_backup_record_op, hkey, if_true]
      split <;> rfl
  refine ⟨hkey, by decide, ?_, ?_, ?_⟩
  · rw [hmain]
  · rw [hmain]
  · intro hfresh
    unfold BackupCTL.create_incremental_backup_fk
    cases hse : segs.isEmpty with
    | true => simp
    | false =>
      simp only [hse, Bool.false_eq_true, if_false,
        BackupCTL.incremental_fold_fk_unchanged backupId startTs segs l0 [] hfresh]
      simp

/-- Witness for C6: a one-segment batch with a fresh backup identifier and
a successful upload still returns failure under the enforced foreign key. -/
theorem c6_incremental_never_succeeds_witness :
    (BackupCTL.create_incremental_backup_fk true "b1" 0 1
        [⟨"0A", true, true, 1, 10, "k", "c"⟩] BackupCTL.emptyLedger).1 = false :=
  (c6_incremental_never_succeeds "b1" 0 1 [⟨"0A", true, true, 1, 10, "k", "c"⟩]
      BackupCTL.emptyLedger true).2.2.2.2 rfl

/- ------------------------------------------------------------------ -/
/- C1                                                                  -/
/- ------------------------------------------------------------------ -/

/-- C1 (code bug): create_incremental_backup writes each WalSegmentRecord
BEFORE the batch's BackupRecord exists — the marker row is only inserted
after the segment loop (backup.py line 201 vs line 176).  Against a backing
store that enforces the schema's own declared foreign key
(`wal_metadata.backup_id REFERENCES backup_metadata(backup_id)`), every
per-segment INSERT is rejected because the fresh backup_id has no parent
row yet, so the whole batch always fails and the ledger is left unchanged. -/
theorem c1_fk_wal_insert_always_rejected (markerOk : Bool) (backupId : String)
    (startTs endTs : Int) (segs : List BackupCTL.WalSegUpload)
    (l0 : BackupCTL.Ledger)
    (hfresh : BackupCTL.hasBackup l0 backupId = false) :
    BackupCTL.create_incremental_backup_fk markerOk backupId startTs endTs segs l0
      = (false, l0) := by
  unfold BackupCTL.create_incremental_backup_fk
  cases hse : segs.isEmpty with
  | true => simp
  | false =>
    simp only [hse, Bool.false_eq_true, if_false,
      BackupCTL.incremental_fold_fk_unchanged backupId startTs segs l0 [] hfresh]
    simp

/-- Witness for C1: a one-segment batch with a fresh backup identifier
against the empty ledger fails and writes nothing. -/
theorem c1_fk_wal_insert_always_rejected_witness :
    BackupCTL.create_incremental_backup_fk true "b1" 0 1
        [⟨"0A", true, true, 1, 10, "k", "c"⟩] BackupCTL.emptyLedger
      = (false, BackupCTL.emptyLedger) :=
  c1_fk_wal_insert_always_rejected true "b1" 0 1
    [⟨"0A", true, true, 1, 10, "k", "c"⟩] BackupCTL.emptyLedger rfl

/- ------------------------------------------------------------------ -/
/- C2                                                                  -/
/- ------------------------------------------------------------------ -/

/-- C2 (code bug): no ledger-write failure ever surfaces as a
LedgerUnavailable-like error, and the full-backup orchestrator cannot even
reach the finalizing write.  Conjuncts: create_full_backup's backup_data
dict is missing placeholders of create_backup_record's INSERT, so the very
first ledger write raises KeyError on every input; hence every full backup
is reported failed (success=false) before pg_dump runs; against the empty
store the run leaves the ledger empty; and update_backup_status, the one
write whose failure the claim singles out, RETURNS False on a store
failure instead of raising — the caller receives a plain Boolean, no error
surfaces, and create_full_backup ignores that Boolean in the source. -/
theorem c2_full_backup_never_succeeds (env : BackupCTL.FullBackupEnv)
    (backupId : String) (startTs endTs : Int) (l0 l : BackupCTL.Ledger)
    (id : String) (st : BackupCTL.BackupStatus) (endT sz : Option Int)
    (k c : Option String) :
    BackupCTL.insertKeyErrors BackupCTL.fullBackupDataKeys
        BackupCTL.backupInsertPlaceholders = true
    ∧ (BackupCTL.create_full_backup env backupId startTs endTs l0).1 = false
    ∧ (BackupCTL.create_full_backup env backupId startTs endTs
        BackupCTL.emptyLedger).2 = BackupCTL.emptyLedger
    ∧ BackupCTL.update_backup_status_op false l id st endT sz k c = (false, l) := by
  have hkey : BackupCTL.insertKeyErrors BackupCTL.fullBackupDataKeys
      BackupCTL.backupInsertPlaceholders = true := by decide
  refine ⟨hkey, ?_, ?_, rfl⟩
  · unfold BackupCTL.create_full_backup
    simp [BackupCTL.create_backup_record_op, hkey]
  · unfold BackupCTL.create_full_backup
    cases hst : env.statusOk <;>
      simp [BackupCTL.create_backup_record_op, hkey, BackupCTL.update_backup_status_op,
        hst, BackupCTL.update_backup_status, BackupCTL.emptyLedger]

/- ------------------------------------------------------------------ -/
/- C3                                                                  -/
/- ------------------------------------------------------------------ -/

/-- Counterexample to C3 as stated: the claim quantifies over every
sequence of ledger operations, and a direct sequence of MetadataManager
calls violates it.  createBackup with a complete draft dict (all fourteen
placeholders provided, as the ledger contract permits) inserts a running
record with NULL s3_key and checksum; update_backup_status(id, 'completed')
without the size/key/checksum kwargs then yields a COMPLETED record whose
remote key and checksum are NULL; and a further
update_backup_status(id, 'running') moves the completed record back to
running — the reverse transition. -/
theorem c3_counterexample :
    BackupCTL.create_backup_record_op BackupCTL.backupInsertPlaceholders true
        BackupCTL.emptyLedger
        { backup_id := "b1", backup_type := .full, status := .running, start_ts := 0 }
      = some { backups := [{ backup_id := "b1", backup_type := .full,
                             status := .running, start_ts := 0 }], wals := [] }
    ∧ (BackupCTL.update_backup_status
        { backups := [{ backup_id := "b1", backup_type := .full,
                        status := .running, start_ts := 0 }], wals := [] }
        "b1" .completed none none none none).backups
      = [{ backup_id := "b1", backup_type := .full, status := .completed,
           start_ts := 0 }]
    ∧ ({ backup_id := "b1", backup_type := .full, status := .completed,
         start_ts := 0 } : BackupCTL.BackupRecord).s3_key = none
    ∧ ({ backup_id := "b1", backup_type := .full, status := .completed,
         start_ts := 0 } : BackupCTL.BackupRecord).checksum = none
    ∧ (BackupCTL.update_backup_status
        { backups := [{ backup_id := "b1", backup_type := .full,
                        status := .completed, start_ts := 0 }], wals := [] }
        "b1" .running none none none none).backups
      = [{ backup_id := "b1", backup_type := .full, status := .running,
           start_ts := 0 }] :=
  ⟨rfl, rfl, rfl, rfl, rfl⟩

/-- C3 amended: the ledger itself does not enforce the invariant —
update_backup_status applies any requested status without guarding the
current one, so a direct status update can complete a record with NULL key
and checksum or move a completed record back to running; and the shipped
orchestrators never exercise any transition at all: starting from the
empty store, neither the full-backup path nor the incremental path ever
succeeds in inserting a BackupRecord (both dicts lack named placeholders
their INSERT requires), leaving backup_metadata empty. -/
theorem c3_status_transitions_amended (l : BackupCTL.Ledger)
    (r : BackupCTL.BackupRecord) (st : BackupCTL.BackupStatus)
    (env : BackupCTL.FullBackupEnv) (backupId : String) (startTs endTs : Int)
    (segs : List BackupCTL.WalSegUpload) :
    (r ∈ l.backups →
      { r with status := st } ∈
        (BackupCTL.update_backup_status l r.backup_id st
          none none none none).backups)
    ∧ (BackupCTL.create_full_backup env backupId startTs endTs
        BackupCTL.emptyLedger).2.backups = []
    ∧ (BackupCTL.create_incremental_backup backupId startTs endTs segs
        BackupCTL.emptyLedger).2.backups = [] := by
  refine ⟨?_, ?_, ?_⟩
  · intro hr
    unfold BackupCTL.update_backup_status
    refine List.mem_map.mpr ⟨r, hr, ?_⟩
    simp
  · have hkey : BackupCTL.insertKeyErrors BackupCTL.fullBackupDataKeys
        BackupCTL.backupInsertPlaceholders = true := by decide
    unfold BackupCTL.create_full_backup
    cases hst : env.statusOk <;>
      simp [BackupCTL.create_backup_record_op, hkey, BackupCTL.update_backup_status_op,
        hst, BackupCTL.update_backup_status, BackupCTL.emptyLedger]
  · have hkey2 : BackupCTL.insertKeyErrors BackupCTL.incrementalMarkerDataKeys
        BackupCTL.backupInsertPlaceholders = true := by decide
    unfold BackupCTL.create_incremental_backup
    cases hse : segs.isEmpty with
    | true => simp [BackupCTL.emptyLedger]
    | false =>
      simp only [Bool.false_eq_true, if_false, BackupCTL.incremental_fold_eq,
        BackupCTL.create_backup_record_op, hkey2, if_true]
      split <;> rfl

/-- Witness for C3 amended: a completed record moved back to running by a
direct status update. -/
theorem c3_status_transitions_amended_witness :
    ({ backup_id := "b1", backup_type := BackupCTL.BackupType.full,
       status := BackupCTL.BackupStatus.running, start_ts := 0 }
        : BackupCTL.BackupRecord)
      ∈ (BackupCTL.update_backup_status
          { backups := [{ backup_id := "b1", backup_type := .full,
                          status := .completed, start_ts := 0 }], wals := [] }
          "b1" .running none none none none).backups := by
  have h := (c3_status_transitions_amended
      { backups := [{ backup_id := "b1", backup_type := .full,
                      status := .completed, start_ts := 0 }], wals := [] }
      { backup_id := "b1", backup_type := .full, status := .completed,
        start_ts := 0 }
      .running ⟨true, true, true, true, true, true, 0, "", ""⟩ "x" 0 0 []).1
    (List.mem_cons_self _ _)
  exact h

namespace BackupCTL

/-- Every uppercase hex digit has value below 16. -/
theorem hexDigit_mem_lt (c : Char) (hc : c ∈ hexUpperChars) :
    (hexDigitVal c).getD 0 < 16 := by
  fin_cases hc <;> decide

/-- On the uppercase hex digits, character order agrees with digit value. -/
theorem hexDigit_mono (a b : Char) (ha : a ∈ hexUpperChars)
    (hb : b ∈ hexUpperChars) (hab : a < b) :
    (hexDigitVal a).getD 0 < (hexDigitVal b).getD 0 := by
  fin_cases ha <;> fin_cases hb <;> first
    | exact absurd hab (by decide)
    | decide

/-- The base-16 accumulator fold splits off its initial accumulator. -/
theorem hexFold_acc (l : List Char) : ∀ acc : Nat,
    l.foldl (fun a c => 16 * a + (hexDigitVal c).getD 0) acc
      = acc * 16 ^ l.length
          + l.foldl (fun a c => 16 * a + (hexDigitVal c).getD 0) 0 := by
  induction l with
  | nil =>
    intro acc
    simp
  | cons c cs ih =>
    intro acc
    rw [List.foldl_cons, List.foldl_cons, ih (16 * acc + (hexDigitVal c).getD 0),
      ih (16 * 0 + (hexDigitVal c).getD 0), List.length_cons, pow_succ]
    ring

/-- Splitting one digit off the front of a hex value. -/
theorem hexValOf_cons (c : Char) (cs : List Char) :
    hexValOf (c :: cs) = (hexDigitVal c).getD 0 * 16 ^ cs.length + hexValOf cs := by
  unfold hexValOf
  rw [List.foldl_cons, hexFold_acc cs (16 * 0 + (hexDigitVal c).getD 0)]
  ring_nf

/-- Lexicographic comparison against the empty list is always false. -/
theorem lexLt_nil_right (l : List Char) : lexLt l [] = false := by
  cases l <;> rfl

/-- A string of hex digits has value below 16 to its length. -/
theorem hexValOf_lt_pow (l : List Char) (hl : ∀ c ∈ l, c ∈ hexUpperChars) :
    hexValOf l < 16 ^ l.length := by
  induction l with
  | nil => simp [hexValOf]
  | cons c cs ih =>
    have hd := hexDigit_mem_lt c (hl c (List.mem_cons_self c cs))
    have hcs := ih (fun x hx => hl x (List.mem_cons_of_mem c hx))
    rw [hexValOf_cons, List.length_cons, pow_succ]
    have step1 : (hexDigitVal c).getD 0 * 16 ^ cs.length + hexValOf cs
        < ((hexDigitVal c).getD 0 + 1) * 16 ^ cs.length := by
      rw [Nat.succ_mul]
      exact Nat.add_lt_add_left hcs _
    have step2 : ((hexDigitVal c).getD 0 + 1) * 16 ^ cs.length
        ≤ 16 * 16 ^ cs.length :=
      Nat.mul_le_mul_right _ (Nat.succ_le_of_lt hd)
    have step3 : 16 * 16 ^ cs.length = 16 ^ cs.length * 16 := Nat.mul_comm _ _
    omega

/-- Lexicographic order on equal-length uppercase-hex digit strings implies
strict order of their base-16 values. -/
theorem hexValOf_lt_of_lexLt (s : List Char) :
    ∀ t : List Char, s.length = t.length →
      (∀ c ∈ s, c ∈ hexUpperChars) → (∀ c ∈ t, c ∈ hexUpperChars) →
      lexLt s t = true → hexValOf s < hexValOf t := by
  induction s with
  | nil =>
    intro t hlen _ _ hlex
    cases t with
    | nil => exact absurd hlex (by decide)
    | cons b tt => simp at hlen
  | cons a ss ih =>
    intro t hlen hs ht hlex
    cases t with
    | nil => simp at hlen
    | cons b tt =>
      have hlen2 : ss.length = tt.length := by simpa using hlen
      rw [hexValOf_cons, hexValOf_cons, hlen2]
      simp only [lexLt] at hlex
      by_cases hab : a < b
      · have hva := hexDigit_mono a b (hs a (List.mem_cons_self a ss))
          (ht b (List.mem_cons_self b tt)) hab
        have hbound := hexValOf_lt_pow ss (fun c hc => hs c (List.mem_cons_of_mem a hc))
        rw [hlen2] at hbound
        have step1 : (hexDigitVal a).getD 0 * 16 ^ tt.length + hexValOf ss
            < ((hexDigitVal a).getD 0 + 1) * 16 ^ tt.length := by
          rw [Nat.succ_mul]
          exact Nat.add_lt_add_left hbound _
        have step2 : ((hexDigitVal a).getD 0 + 1) * 16 ^ tt.length
            ≤ (hexDigitVal b).getD 0 * 16 ^ tt.length :=
          Nat.mul_le_mul_right _ (Nat.succ_le_of_lt hva)
        have step3 : (hexDigitVal b).getD 0 * 16 ^ tt.length
            ≤ (hexDigitVal b).getD 0 * 16 ^ tt.length + hexValOf tt :=
          Nat.le_add_right _ _
        exact lt_of_lt_of_le step1 (le_trans step2 step3)
      · rw [if_neg hab] at hlex
        by_cases heq : a = b
        · rw [if_pos heq] at hlex
          subst heq
          have hrec := ih tt hlen2 (fun c hc => hs c (List.mem_cons_of_mem a hc))
            (fun c hc => ht c (List.mem_cons_of_mem a hc)) hlex
          exact Nat.add_lt_add_left hrec _
        · rw [if_neg heq] at hlex
          exact absurd hlex (by decide)

/-- A list of characters that all satisfy a predicate is its own takeWhile. -/
theorem takeWhile_of_all {p : Char → Bool} (l : List Char)
    (h : ∀ c ∈ l, p c = true) : l.takeWhile p = l := by
  induction l with
  | nil => rfl
  | cons c cs ih =>
    rw [List.takeWhile_cons, h c (List.mem_cons_self c cs)]
    simp [ih (fun x hx => h x (List.mem_cons_of_mem c hx))]

/-- Parsing a nonempty all-digit string succeeds with the accumulated value. -/
theorem parseHexAux_some (l : List Char) (hl : ∀ c ∈ l, c ∈ hexUpperChars) :
    ∀ acc : Nat, parseHexAux acc l
      = some (l.foldl (fun a c => 16 * a + (hexDigitVal c).getD 0) acc) := by
  induction l with
  | nil => intro acc; rfl
  | cons c cs ih =>
    intro acc
    have hc : c ∈ hexUpperChars := hl c (List.mem_cons_self c cs)
    have hsome : (hexDigitVal c).isSome = true := by fin_cases hc <;> decide
    rcases hv : hexDigitVal c with _ | v
    · rw [hv] at hsome
      exact absurd hsome (by simp)
    · simp only [parseHexAux, hv, List.foldl_cons]
      rw [ih (fun x hx => hl x (List.mem_cons_of_mem c hx))]
      rfl

/-- On a (nonempty) name made purely of uppercase hex digits the stem is
the whole name and _extract_wal_sequence returns its base-16 value. -/
theorem extract_upperhex (name : String) (hne : name.data ≠ [])
    (hs : ∀ c ∈ name.data, c ∈ hexUpperChars) :
    extract_wal_sequence name = hexValOf name.data := by
  have hstem : stemOf name = name.data := by
    unfold stemOf
    apply takeWhile_of_all
    intro c hc
    have := hs c hc
    fin_cases this <;> decide
  have hnemp : name.data.isEmpty = false := by
    cases hd : name.data with
    | nil => exact absurd hd hne
    | cons c cs => rfl
  unfold extract_wal_sequence parseHexDigits
  rw [hstem, hnemp]
  simp only [Bool.false_eq_true, if_false]
  rw [parseHexAux_some name.data hs 0]
  have : name.data.foldl (fun a c => 16 * a + (hexDigitVal c).getD 0) 0
      = hexValOf name.data := rfl
  rw [this]
  rfl

end BackupCTL

/- ------------------------------------------------------------------ -/
/- C7                                                                  -/
/- ------------------------------------------------------------------ -/

/-- Counterexample to C7 as stated: the names "10" and "9" are both valid
under the code's decoding, and "10" precedes "9" lexically, yet its
sequence number (16) is larger than that of "9" (9): lexical order of
segment names does not imply increasing sequence numbers. -/
theorem c7_counterexample :
    BackupCTL.parseHexDigits (BackupCTL.stemOf "10") = some 16
    ∧ BackupCTL.parseHexDigits (BackupCTL.stemOf "9") = some 9
    ∧ BackupCTL.lexLt "10".data "9".data = true
    ∧ BackupCTL.extract_wal_sequence "10" = 16
    ∧ BackupCTL.extract_wal_sequence "9" = 9
    ∧ ¬ BackupCTL.extract_wal_sequence "10" < BackupCTL.extract_wal_sequence "9" := by
  refine ⟨rfl, rfl, rfl, rfl, rfl, by decide⟩

/-- C7 amended: every WAL row written by an incremental batch stores as
sequence number the name's extension-stripped stem decoded as base-16 (0
when unparseable, via _extract_wal_sequence); for two equal-length names
over the UPPERCASE hex digits, lexical order does imply strictly increasing
sequence numbers; and get_wals_for_backup returns the backup's segments
ordered by non-decreasing sequence number — strictly whenever the backup's
stored sequence numbers are pairwise distinct. -/
theorem c7_wal_sequence_amended (backupId : String)
    (startTs endTs : Int) (segs : List BackupCTL.WalSegUpload)
    (l0 : BackupCTL.Ledger) (l : BackupCTL.Ledger) (id : String)
    (s t : String) :
    (∀ w ∈ (BackupCTL.create_incremental_backup backupId startTs endTs
        segs l0).2.wals,
      w ∈ l0.wals ∨ w.sequence_number = (BackupCTL.extract_wal_sequence w.wal_name : Int))
    ∧ (s.data.length = t.data.length →
        (∀ c ∈ s.data, c ∈ BackupCTL.hexUpperChars) →
        (∀ c ∈ t.data, c ∈ BackupCTL.hexUpperChars) →
        BackupCTL.lexLt s.data t.data = true →
        BackupCTL.extract_wal_sequence s < BackupCTL.extract_wal_sequence t)
    ∧ List.Pairwise BackupCTL.seqLe (BackupCTL.get_wals_for_backup l id)
    ∧ (((l.wals.filter (fun w => w.backup_id == id)).map
          (fun w => w.sequence_number)).Nodup →
        List.Pairwise (fun a b => a.sequence_number < b.sequence_number)
          (BackupCTL.get_wals_for_backup l id)) := by
  refine ⟨?_, ?_, ?_, ?_⟩
  · intro w hw
    unfold BackupCTL.create_incremental_backup at hw
    cases hse : segs.isEmpty with
    | true =>
      rw [hse] at hw
      simp only [if_true] at hw
      exact Or.inl hw
    | false =>
      rw [hse] at hw
      have hkey : BackupCTL.insertKeyErrors BackupCTL.incrementalMarkerDataKeys
          BackupCTL.backupInsertPlaceholders = true := by decide
      simp only [Bool.false_eq_true, if_false, BackupCTL.incremental_fold_eq,
        BackupCTL.create_backup_record_op, hkey, if_true] at hw
      split at hw <;>
        (rw [List.mem_append] at hw
         rcases hw with hw | hw
         · exact Or.inl hw
         · rcases List.mem_map.mp hw with ⟨sg, hsg, rfl⟩
           exact Or.inr rfl)
  · intro hlen hs ht hlex
    have hne : s.data ≠ [] := by
      intro hnil
      rw [hnil] at hlen hlex
      have : t.data = [] := List.length_eq_zero.mp hlen.symm
      rw [this] at hlex
      exact absurd hlex (by decide)
    have hne2 : t.data ≠ [] := by
      intro hnil
      rw [hnil, BackupCTL.lexLt_nil_right] at hlex
      exact absurd hlex (by decide)
    rw [BackupCTL.extract_upperhex s hne hs, BackupCTL.extract_upperhex t hne2 ht]
    exact BackupCTL.hexValOf_lt_of_lexLt s.data t.data hlen hs ht hlex
  · unfold BackupCTL.get_wals_for_backup
    exact List.sorted_insertionSort BackupCTL.seqLe _
  · intro hnd
    have hperm : List.Perm (BackupCTL.get_wals_for_backup l id)
        (l.wals.filter (fun w => w.backup_id == id)) :=
      List.perm_insertionSort _ _
    have hnd2 : ((BackupCTL.get_wals_for_backup l id).map
        (fun w => w.sequence_number)).Nodup :=
      ((hperm.map _).nodup_iff).mpr hnd
    have hsorted : List.Pairwise BackupCTL.seqLe (BackupCTL.get_wals_for_backup l id) := by
      unfold BackupCTL.get_wals_for_backup
      exact List.sorted_insertionSort BackupCTL.seqLe _
    have hne3 : List.Pairwise (fun a b => a.sequence_number ≠ b.sequence_number)
        (BackupCTL.get_wals_for_backup l id) :=
      List.pairwise_map.mp hnd2
    exact (hsorted.and hne3).imp (fun hab => lt_of_le_of_ne hab.1 hab.2)

/-- Witness for C7 amended: for the equal-length uppercase-hex names "0A"
and "0B", lexical order gives strictly increasing sequence numbers. -/
theorem c7_wal_sequence_amended_witness :
    BackupCTL.extract_wal_sequence "0A" < BackupCTL.extract_wal_sequence "0B" :=
  (c7_wal_sequence_amended "b" 0 0 [] BackupCTL.emptyLedger
      BackupCTL.emptyLedger "b" "0A" "0B").2.1 rfl (by decide) (by decide) (by decide)
